import Mathlib

/-!
Verification of `tools/control/api.go`.

A shallow embedding of the `api` sub-command of the control tool: the
identifier parser `getServiceMethod`, the registry `serivceHandlerMap`, the two
service handlers `callLogService` and `callStatsService`, and the body of the
registered command that ties them together.

Go strings are modelled as lists of Unicode code points, that is, as valid
UTF-8 text: the byte `'.'` never occurs inside the encoding of another code
point, so splitting the bytes at `"."` and splitting the code points at `'.'`
cut at the same places.  The text codec of the protobuf library and the
generated gRPC clients live outside the repository and are taken as
parameters; every effect a handler performs on them is recorded in a trace, so
that "was not decoded" and "was called once" are statements about that trace.
-/

namespace Control

/-- A Go `string`, as the list of its code points. -/
abbrev GoString := List Char

/-! ## The parts of package `strings` that the file uses -/

/-- The call `strings.Split(s, sep)` for a separator of one character, the only
way the source calls it: the pieces of `s` between consecutive occurrences of
`sep`, in order.  The result always has one piece more than `s` has
separators, so it is never empty. -/
def strings.Split : GoString → Char → List GoString
  | [], _ => [[]]
  | c :: cs, sep =>
    if c = sep then [] :: strings.Split cs sep
    else
      match strings.Split cs sep with
      | [] => [[c]]
      | piece :: pieces => (c :: piece) :: pieces

/-- The function `unicode.ToLower` on one code point.  Below `0x80` it is the
ASCII rule of the Go library (`'A'..'Z'` are shifted by `'a' - 'A'`, everything
else is kept); above, the case table of the Unicode library decides, and that
table is the parameter `lowerRune`. -/
def unicode.ToLower (lowerRune : Char → Char) (r : Char) : Char :=
  if r.toNat ≤ 0x7F then
    if 'A'.toNat ≤ r.toNat ∧ r.toNat ≤ 'Z'.toNat then Char.ofNat (r.toNat + ('a'.toNat - 'A'.toNat))
    else r
  else lowerRune r

/-- The function `strings.ToLower`: every code point mapped by `unicode.ToLower`. -/
def strings.ToLower (lowerRune : Char → Char) (s : GoString) : GoString :=
  s.map (unicode.ToLower lowerRune)

/-! ## The identifier parser -/

/-- The function `getServiceMethod` (api.go, lines 19-27).  Indexing a slice out
of range panics in Go; here it yields `none`. -/
def getServiceMethod (s : GoString) : Option (GoString × GoString) := do
  let ss := strings.Split s '.'
  let service ← ss[0]?
  let method ← if ss.length > 1 then ss[1]? else some []
  return (service, method)

/-! ## Errors, messages and effects -/

/-- A Go `error` value: either built by `errors.New` in this file, or a value
handed back by a library (the text codec, the gRPC client). -/
inductive GoError (E : Type) where
  | errorsNew (text : GoString)
  | foreign (e : E)
  deriving DecidableEq

/-- One operand of a `fmt.Println` / `fmt.Fprintln` call. -/
inductive Operand (E : Type) where
  | str (s : GoString)
  | err (e : GoError E)
  deriving DecidableEq

/-- The effects the command performs, in the order of the trace.  `M` is the
type of protobuf messages, `E` the type of library error values. -/
inductive Event (M E : Type) where
  /-- The call `proto.UnmarshalText(text, target)`. -/
  | unmarshalText (text : GoString) (target : M)
  /-- The remote call `client.RestartLogger(ctx, r)`. -/
  | restartLogger (r : M)
  /-- The remote call `client.GetStats(ctx, r)`. -/
  | getStats (r : M)
  /-- The call `proto.MarshalTextString(resp)`. -/
  | marshalTextString (resp : M)
  /-- The call `printUsage()`. -/
  | printUsage
  /-- The call `fmt.Fprintln(os.Stderr, operands...)`. -/
  | stderrLn (operands : List (Operand E))
  /-- The call `fmt.Println(operands...)`. -/
  | stdoutLn (operands : List (Operand E))
  /-- The deferred call `conn.Close()`. -/
  | connClose
  deriving DecidableEq

/-- The library code the handlers call: the Unicode case table, the zero values
of the two request messages, and the protobuf text codec. -/
structure Extern (M E : Type) where
  /-- The table behind `unicode.ToLower` for code points from `0x80` on. -/
  lowerRune : Char → Char
  /-- The value `&logService.RestartLoggerRequest{}`. -/
  restartLoggerRequest : M
  /-- The value `&statsService.GetStatsRequest{}`. -/
  getStatsRequest : M
  /-- The call `proto.UnmarshalText(text, target)`: the filled message, or the
  error it returns. -/
  unmarshalText : GoString → M → Except (GoError E) M
  /-- The call `proto.MarshalTextString(resp)`. -/
  marshalTextString : M → GoString

/-- An open `*grpc.ClientConn`, seen through the two remote procedures the
clients built on it can call: each gives a response or an error. -/
structure ClientConn (M E : Type) where
  restartLogger : M → Except (GoError E) M
  getStats : M → Except (GoError E) M

/-- What a handler returns, `(string, error)` with `none` for a nil error,
together with the trace of the effects it performed. -/
abbrev CallResult (M E : Type) := (GoString × Option (GoError E)) × List (Event M E)

/-- The type `serviceHandler` (api.go, line 37). -/
abbrev serviceHandler (M E : Type) := ClientConn M E → GoString → GoString → CallResult M E

/-- Number of remote calls recorded in a trace. -/
def remoteCalls {M E : Type} : List (Event M E) → Nat
  | [] => 0
  | Event.restartLogger _ :: t => remoteCalls t + 1
  | Event.getStats _ :: t => remoteCalls t + 1
  | _ :: t => remoteCalls t

/-- Number of `proto.UnmarshalText` calls recorded in a trace. -/
def decodes {M E : Type} : List (Event M E) → Nat
  | [] => 0
  | Event.unmarshalText _ _ :: t => decodes t + 1
  | _ :: t => decodes t

/-- Number of `proto.MarshalTextString` calls recorded in a trace. -/
def encodes {M E : Type} : List (Event M E) → Nat
  | [] => 0
  | Event.marshalTextString _ :: t => encodes t + 1
  | _ :: t => encodes t

/-! ## The service handlers -/

/-- The function `callLogService` (api.go, lines 44-61). -/
def callLogService {M E : Type} (x : Extern M E) : serviceHandler M E :=
  fun conn method request =>
    if strings.ToLower x.lowerRune method = "restartlogger".toList then
      let t := [Event.unmarshalText request x.restartLoggerRequest]
      match x.unmarshalText request x.restartLoggerRequest with
      | .error err => (([], some err), t)
      | .ok r =>
        let t := t ++ [Event.restartLogger r]
        match conn.restartLogger r with
        | .error err => (([], some err), t)
        | .ok resp => ((x.marshalTextString resp, none), t ++ [Event.marshalTextString resp])
    else
      (([], some (GoError.errorsNew ("Unknown method: ".toList ++ method))), [])

/-- The function `callStatsService` (api.go, lines 63-80). -/
def callStatsService {M E : Type} (x : Extern M E) : serviceHandler M E :=
  fun conn method request =>
    if strings.ToLower x.lowerRune method = "getstats".toList then
      let t := [Event.unmarshalText request x.getStatsRequest]
      match x.unmarshalText request x.getStatsRequest with
      | .error err => (([], some err), t)
      | .ok r =>
        let t := t ++ [Event.getStats r]
        match conn.getStats r with
        | .error err => (([], some err), t)
        | .ok resp => ((x.marshalTextString resp, none), t ++ [Event.marshalTextString resp])
    else
      (([], some (GoError.errorsNew ("Unknown method: ".toList ++ method))), [])

/-! ## The registry and the command -/

/-- The map `serivceHandlerMap` (api.go, lines 39-42), as its list of entries. -/
def serivceHandlerMap {M E : Type} (x : Extern M E) : List (GoString × serviceHandler M E) :=
  [("statsservice".toList, callStatsService x),
   ("loggerservice".toList, callLogService x)]

/-- The map access `serivceHandlerMap[strings.ToLower(service)]` (api.go, line
113): the handler when the key is present, `none` when `found` is false. -/
def lookupHandler {M E : Type} (x : Extern M E) (service : GoString) : Option (serviceHandler M E) :=
  (serivceHandlerMap x).lookup (strings.ToLower x.lowerRune service)

/-- The body of the command registered in `init`, from `defer conn.Close()` on
(api.go, lines 104-125), run on the open connection `conn` with the positional
arguments `unnamedArgs`: the trace of what it does, the deferred close last, or
`none` if an index is out of range. -/
def apiCommand {M E : Type} (x : Extern M E) (conn : ClientConn M E)
    (unnamedArgs : List GoString) : Option (List (Event M E)) :=
  if unnamedArgs.length < 2 then some [Event.printUsage, Event.connClose]
  else do
    let arg0 ← unnamedArgs[0]?
    let (service, method) ← getServiceMethod arg0
    match lookupHandler x service with
    | none =>
      some [Event.stderrLn [.str "Unknown service:".toList, .str service], Event.connClose]
    | some handler =>
      let arg1 ← unnamedArgs[1]?
      let ((response, err), t) := handler conn method arg1
      match err with
      | some e =>
        some (t ++ [Event.stderrLn
          [.str "failed to call service".toList, .str arg0, .str ":".toList, .err e],
          Event.connClose])
      | none => some (t ++ [Event.stdoutLn [.str response], Event.connClose])

/-! ## A concrete instance, used to run the definitions -/

/-- A toy text codec: a message is its own text, and any text that holds a
`'?'` is rejected with error code `1`. -/
def demoExtern : Extern GoString Nat where
  lowerRune := id
  restartLoggerRequest := []
  getStatsRequest := []
  unmarshalText := fun text _ => if '?' ∈ text then .error (.foreign 1) else .ok text
  marshalTextString := fun resp => resp

/-- A connection whose remote procedures answer `"ok"`. -/
def demoConn : ClientConn GoString Nat where
  restartLogger := fun _ => .ok "ok".toList
  getStats := fun _ => .ok "ok".toList

/-- A connection whose remote procedures fail with error code `7`. -/
def brokenConn : ClientConn GoString Nat where
  restartLogger := fun _ => .error (.foreign 7)
  getStats := fun _ => .error (.foreign 7)

/-! ## Lemmas on `strings.Split` and `getServiceMethod` -/

theorem split_no_sep (sep : Char) (s : GoString) (h : sep ∉ s) :
    strings.Split s sep = [s] := by
  induction s with
  | nil => rfl
  | cons c cs ih =>
    have hc : c ≠ sep := fun e => h (by simp [e])
    have hcs : sep ∉ cs := fun m => h (List.mem_cons_of_mem _ m)
    simp [strings.Split, hc, ih hcs]

theorem split_append (sep : Char) (a b : GoString) (h : sep ∉ a) :
    strings.Split (a ++ sep :: b) sep = a :: strings.Split b sep := by
  induction a with
  | nil => simp [strings.Split]
  | cons c cs ih =>
    have hc : c ≠ sep := fun e => h (by simp [e])
    have hcs : sep ∉ cs := fun m => h (List.mem_cons_of_mem _ m)
    simp [strings.Split, hc, ih hcs]

theorem exists_first_sep (sep : Char) (s : GoString) (h : sep ∈ s) :
    ∃ a b, sep ∉ a ∧ s = a ++ sep :: b := by
  induction s with
  | nil => simp at h
  | cons c cs ih =>
    by_cases hc : c = sep
    · exact ⟨[], cs, by simp, by simp [hc]⟩
    · have hcs : sep ∈ cs := by
        rcases List.mem_cons.mp h with e | m
        · exact absurd e.symm hc
        · exact m
      obtain ⟨a, b, ha, hs⟩ := ih hcs
      refine ⟨c :: a, b, ?_, by simp [hs]⟩
      intro m
      rcases List.mem_cons.mp m with e | m
      · exact hc e.symm
      · exact ha m

theorem getServiceMethod_no_dot (s : GoString) (h : '.' ∉ s) :
    getServiceMethod s = some (s, []) := by
  simp [getServiceMethod, split_no_sep _ s h]

theorem getServiceMethod_one_dot (a b : GoString) (ha : '.' ∉ a) (hb : '.' ∉ b) :
    getServiceMethod (a ++ '.' :: b) = some (a, b) := by
  simp [getServiceMethod, split_append _ a b ha, split_no_sep _ b hb]

theorem getServiceMethod_more_dots (a b c : GoString) (ha : '.' ∉ a) (hb : '.' ∉ b) :
    getServiceMethod (a ++ '.' :: (b ++ '.' :: c)) = some (a, b) := by
  simp [getServiceMethod, split_append _ a _ ha, split_append _ b c hb]

theorem takeWhile_no_dot (a : GoString) (ha : '.' ∉ a) (rest : GoString)
    (hr : rest = [] ∨ ∃ t, rest = '.' :: t) :
    (a ++ rest).takeWhile (fun c => c != '.') = a := by
  induction a with
  | nil =>
    rcases hr with rfl | ⟨t, rfl⟩
    · rfl
    · simp
  | cons c cs ih =>
    have hc : c ≠ '.' := fun e => ha (by simp [e])
    have hcs : '.' ∉ cs := fun m => ha (List.mem_cons_of_mem _ m)
    have hne : (c != '.') = true := by simp [hc]
    rw [List.cons_append, List.takeWhile_cons, hne]
    simp [ih hcs]

/-! ## The identifier parser: claims -/

/-- C1, as stated, fails: `"A.B.C"` holds a `'.'`, the parser returns the
service `"A"` and the non-empty method `"B"`, and `"A" + "." + "B"` is not
`"A.B.C"`. -/
theorem getServiceMethod_reconstruct_fails :
    '.' ∈ "A.B.C".toList ∧
    getServiceMethod "A.B.C".toList = some ("A".toList, "B".toList) ∧
    "B".toList ≠ [] ∧
    "A".toList ++ ".".toList ++ "B".toList ≠ "A.B.C".toList := by
  decide

/-- C1, amended: for every string `s` that holds a `'.'`, the parser returns a
pair `(service, method)` in which neither the service nor the method holds a
`'.'` and `s` is either `service + "." + method` or
`service + "." + method + "." + rest` for some `rest`: the service is the part
before the first `'.'` and the method the part between the first and the second
`'.'` (or the end of `s`).  So `service + "." + method` is `s` exactly when `s`
holds one `'.'` and no more. -/
theorem getServiceMethod_reconstruct (s : GoString) (h : '.' ∈ s) :
    ∃ service method, getServiceMethod s = some (service, method) ∧
      '.' ∉ service ∧ '.' ∉ method ∧
      (s = service ++ ".".toList ++ method ∨
        ∃ rest, s = service ++ ".".toList ++ method ++ ".".toList ++ rest) ∧
      (service ++ ".".toList ++ method = s ↔ s.count '.' = 1) := by
  obtain ⟨a, b, ha, rfl⟩ := exists_first_sep '.' s h
  have hca : a.count '.' = 0 := List.count_eq_zero.mpr ha
  by_cases hb : '.' ∈ b
  · obtain ⟨b1, c, hb1, rfl⟩ := exists_first_sep '.' b hb
    have hcb : b1.count '.' = 0 := List.count_eq_zero.mpr hb1
    refine ⟨a, b1, getServiceMethod_more_dots a b1 c ha hb1, ha, hb1, Or.inr ⟨c, by simp⟩, ?_⟩
    constructor
    · intro e
      have := congrArg List.length e
      simp at this
    · intro e
      simp [List.count_append, List.count_cons, hca, hcb] at e
  · have hcb : b.count '.' = 0 := List.count_eq_zero.mpr hb
    refine ⟨a, b, getServiceMethod_one_dot a b ha hb, ha, hb, Or.inl (by simp), ?_⟩
    constructor
    · intro _
      simp [List.count_append, List.count_cons, hca, hcb]
    · intro _
      simp

/-- Witness: the amended reconstruction law at `"LoggerService.RestartLogger"`. -/
theorem getServiceMethod_reconstruct_witness :
    '.' ∈ "LoggerService.RestartLogger".toList ∧
    ∃ service method,
      getServiceMethod "LoggerService.RestartLogger".toList = some (service, method) ∧
      '.' ∉ service ∧ '.' ∉ method ∧
      ("LoggerService.RestartLogger".toList = service ++ ".".toList ++ method ∨
        ∃ rest, "LoggerService.RestartLogger".toList =
          service ++ ".".toList ++ method ++ ".".toList ++ rest) ∧
      (service ++ ".".toList ++ method = "LoggerService.RestartLogger".toList ↔
        "LoggerService.RestartLogger".toList.count '.' = 1) :=
  ⟨by decide, getServiceMethod_reconstruct _ (by decide)⟩

/-- C2: for every string `s` the service returned by the parser is the part of
`s` before its first `'.'` (the longest prefix without a `'.'`), character for
character; and when `s` holds no `'.'` the parser returns `(s, "")`. -/
theorem getServiceMethod_service (s : GoString) :
    (∃ method, getServiceMethod s = some (s.takeWhile (fun c => c != '.'), method)) ∧
    ('.' ∉ s → getServiceMethod s = some (s, [])) := by
  refine ⟨?_, getServiceMethod_no_dot s⟩
  by_cases h : '.' ∈ s
  · obtain ⟨a, b, ha, rfl⟩ := exists_first_sep '.' s h
    rw [takeWhile_no_dot a ha _ (Or.inr ⟨b, rfl⟩)]
    by_cases hb : '.' ∈ b
    · obtain ⟨b1, c, hb1, rfl⟩ := exists_first_sep '.' b hb
      exact ⟨b1, getServiceMethod_more_dots a b1 c ha hb1⟩
    · exact ⟨b, getServiceMethod_one_dot a b ha hb⟩
  · have e := takeWhile_no_dot s h [] (Or.inl rfl)
    rw [List.append_nil] at e
    rw [e]
    exact ⟨[], getServiceMethod_no_dot s h⟩

/-- Witness: the parser on `"StatsService"`, a string without `'.'`. -/
theorem getServiceMethod_service_witness :
    '.' ∉ "StatsService".toList ∧
    getServiceMethod "StatsService".toList = some ("StatsService".toList, []) :=
  ⟨by decide, (getServiceMethod_service "StatsService".toList).2 (by decide)⟩

/-- C10: for every string `s`, the empty one included, the parser returns a
pair (no index is out of range), and neither the service nor the method holds
a `'.'`. -/
theorem getServiceMethod_total (s : GoString) :
    ∃ service method, getServiceMethod s = some (service, method) ∧
      '.' ∉ service ∧ '.' ∉ method := by
  by_cases h : '.' ∈ s
  · obtain ⟨a, b, ha, rfl⟩ := exists_first_sep '.' s h
    by_cases hb : '.' ∈ b
    · obtain ⟨b1, c, hb1, rfl⟩ := exists_first_sep '.' b hb
      exact ⟨a, b1, getServiceMethod_more_dots a b1 c ha hb1, ha, hb1⟩
    · exact ⟨a, b, getServiceMethod_one_dot a b ha hb, ha, hb⟩
  · exact ⟨s, [], getServiceMethod_no_dot s h, h, by simp⟩

/-! ## Lemmas on the case folding of the names in the file -/

theorem toLower_RestartLogger (f : Char → Char) :
    strings.ToLower f "RestartLogger".toList = "restartlogger".toList := rfl

theorem toLower_GetStats (f : Char → Char) :
    strings.ToLower f "GetStats".toList = "getstats".toList := rfl

theorem toLower_nil (f : Char → Char) : strings.ToLower f [] = [] := rfl

theorem lookupHandler_of_key {M E : Type} (x : Extern M E) (service : GoString) :
    lookupHandler x service =
      if strings.ToLower x.lowerRune service = "statsservice".toList then
        some (callStatsService x)
      else if strings.ToLower x.lowerRune service = "loggerservice".toList then
        some (callLogService x)
      else none := by
  unfold lookupHandler serivceHandlerMap
  generalize strings.ToLower x.lowerRune service = k
  by_cases h1 : k = "statsservice".toList
  · subst h1
    rfl
  · by_cases h2 : k = "loggerservice".toList
    · subst h2
      rfl
    · have e1 : (k == "statsservice".toList) = false := by simpa using h1
      have e2 : (k == "loggerservice".toList) = false := by simpa using h2
      rw [if_neg h1, if_neg h2]
      simp only [List.lookup, e1, e2]

/-! ## The registry and the command: claims -/

/-- C3: the registry lookup is case-insensitive: two service names with the
same lower-casing give the same lookup result (found or not, and which
handler); `"StatsService"` and `"statsservice"` both find `callStatsService`,
`"LoggerService"` and `"loggerservice"` both find `callLogService`. -/
theorem lookupHandler_case_insensitive {M E : Type} (x : Extern M E) (a b : GoString)
    (h : strings.ToLower x.lowerRune a = strings.ToLower x.lowerRune b) :
    lookupHandler x a = lookupHandler x b ∧
    lookupHandler x "StatsService".toList = some (callStatsService x) ∧
    lookupHandler x "statsservice".toList = some (callStatsService x) ∧
    lookupHandler x "LoggerService".toList = some (callLogService x) ∧
    lookupHandler x "loggerservice".toList = some (callLogService x) := by
  refine ⟨?_, rfl, rfl, rfl, rfl⟩
  unfold lookupHandler
  rw [h]

/-- Witness: the lookups of `"StatsService"` and `"statsservice"` agree. -/
theorem lookupHandler_case_insensitive_witness :
    strings.ToLower demoExtern.lowerRune "StatsService".toList =
      strings.ToLower demoExtern.lowerRune "statsservice".toList ∧
    lookupHandler demoExtern "StatsService".toList =
      lookupHandler demoExtern "statsservice".toList :=
  ⟨by decide,
   (lookupHandler_case_insensitive demoExtern "StatsService".toList "statsservice".toList
      (by decide)).1⟩

/-- C4: when the service name parsed from the identifier, lower-cased, is not a
key of the registry, then for every connection and every request text the
command writes the unknown-service line naming that service (as given) to
standard error and ends: no handler is run, so the request text is not decoded
and no remote call is made. -/
theorem apiCommand_unknown_service {M E : Type} (x : Extern M E) (conn : ClientConn M E)
    (identifier request : GoString) (rest : List GoString) (service method : GoString)
    (hp : getServiceMethod identifier = some (service, method))
    (hk : strings.ToLower x.lowerRune service ∉ (serivceHandlerMap x).map Prod.fst) :
    ∃ t, apiCommand x conn (identifier :: request :: rest) = some t ∧
      t = [Event.stderrLn [.str "Unknown service:".toList, .str service], Event.connClose] ∧
      decodes t = 0 ∧ remoteCalls t = 0 ∧ encodes t = 0 := by
  have hk1 : strings.ToLower x.lowerRune service ≠ "statsservice".toList := by
    intro e
    exact hk (by simp [serivceHandlerMap, e])
  have hk2 : strings.ToLower x.lowerRune service ≠ "loggerservice".toList := by
    intro e
    exact hk (by simp [serivceHandlerMap, e])
  have hl : lookupHandler x service = none := by
    rw [lookupHandler_of_key, if_neg hk1, if_neg hk2]
  refine ⟨_, ?_, rfl, rfl, rfl, rfl⟩
  simp [apiCommand, hp, hl]

/-- Witness: the command on the identifier `"UnknownSvc.Foo"`. -/
theorem apiCommand_unknown_service_witness :
    ∃ t, apiCommand demoExtern demoConn ["UnknownSvc.Foo".toList, "name: 1".toList] = some t ∧
      t = [Event.stderrLn [.str "Unknown service:".toList, .str "UnknownSvc".toList],
           Event.connClose] ∧
      decodes t = 0 ∧ remoteCalls t = 0 ∧ encodes t = 0 :=
  apiCommand_unknown_service demoExtern demoConn "UnknownSvc.Foo".toList "name: 1".toList []
    "UnknownSvc".toList "Foo".toList (by decide) (by decide)

/-! ## The service handlers: claims -/

/-- C5: for each of the two handlers, for every connection, request text and
method string whose lower-casing is not the supported method, the handler
returns the empty response and the error `"Unknown method: "` followed by the
method string as given, and its trace is empty: nothing was decoded, no remote
call was made.  The empty method, which an identifier without `'.'` gives, is
such a method for both handlers. -/
theorem handlers_unknown_method {M E : Type} (x : Extern M E) (conn : ClientConn M E)
    (method request : GoString) :
    (strings.ToLower x.lowerRune method ≠ "restartlogger".toList →
      callLogService x conn method request =
        (([], some (GoError.errorsNew ("Unknown method: ".toList ++ method))), [])) ∧
    (strings.ToLower x.lowerRune method ≠ "getstats".toList →
      callStatsService x conn method request =
        (([], some (GoError.errorsNew ("Unknown method: ".toList ++ method))), [])) ∧
    callLogService x conn [] request =
      (([], some (GoError.errorsNew "Unknown method: ".toList)), []) ∧
    callStatsService x conn [] request =
      (([], some (GoError.errorsNew "Unknown method: ".toList)), []) := by
  refine ⟨?_, ?_, ?_, ?_⟩
  · intro h
    simp only [callLogService]
    rw [if_neg h]
  · intro h
    simp only [callStatsService]
    rw [if_neg h]
  · simp [callLogService, toLower_nil]
  · simp [callStatsService, toLower_nil]

/-- Witness: both handlers on the method `"Reset"`, which neither supports. -/
theorem handlers_unknown_method_witness :
    callLogService demoExtern demoConn "Reset".toList "name: 1".toList =
      (([], some (GoError.errorsNew "Unknown method: Reset".toList)), []) ∧
    callStatsService demoExtern demoConn "Reset".toList "name: 1".toList =
      (([], some (GoError.errorsNew "Unknown method: Reset".toList)), []) :=
  ⟨(handlers_unknown_method demoExtern demoConn "Reset".toList "name: 1".toList).1
      (by decide),
   (handlers_unknown_method demoExtern demoConn "Reset".toList "name: 1".toList).2.1
      (by decide)⟩

/-- C6: for each of the two handlers called with a spelling of its supported
method: if the request text decodes to `r` and the remote call on `r` returns
the error `e`, the handler returns the empty response together with `e` itself,
after one decode and one remote call (on `r`), with no second attempt. -/
theorem handlers_remote_error {M E : Type} (x : Extern M E) (conn : ClientConn M E)
    (method request : GoString) (r : M) (e : GoError E) :
    (strings.ToLower x.lowerRune method = "restartlogger".toList →
      x.unmarshalText request x.restartLoggerRequest = .ok r →
      conn.restartLogger r = .error e →
      callLogService x conn method request =
        (([], some e),
          [Event.unmarshalText request x.restartLoggerRequest, Event.restartLogger r]) ∧
      remoteCalls (callLogService x conn method request).2 = 1) ∧
    (strings.ToLower x.lowerRune method = "getstats".toList →
      x.unmarshalText request x.getStatsRequest = .ok r →
      conn.getStats r = .error e →
      callStatsService x conn method request =
        (([], some e), [Event.unmarshalText request x.getStatsRequest, Event.getStats r]) ∧
      remoteCalls (callStatsService x conn method request).2 = 1) := by
  constructor
  · intro hm hd hr
    have h : callLogService x conn method request =
        (([], some e),
          [Event.unmarshalText request x.restartLoggerRequest, Event.restartLogger r]) := by
      simp [callLogService, hm, hd, hr]
    exact ⟨h, by rw [h]; rfl⟩
  · intro hm hd hr
    have h : callStatsService x conn method request =
        (([], some e), [Event.unmarshalText request x.getStatsRequest, Event.getStats r]) := by
      simp [callStatsService, hm, hd, hr]
    exact ⟨h, by rw [h]; rfl⟩

/-- Witness: both handlers on a connection whose remote procedures fail with
error code `7`. -/
theorem handlers_remote_error_witness :
    (callLogService demoExtern brokenConn "RestartLogger".toList [] =
        (([], some (GoError.foreign 7)),
          [Event.unmarshalText [] [], Event.restartLogger []]) ∧
      remoteCalls (callLogService demoExtern brokenConn "RestartLogger".toList []).2 = 1) ∧
    (callStatsService demoExtern brokenConn "GetStats".toList "name: 1".toList =
        (([], some (GoError.foreign 7)),
          [Event.unmarshalText "name: 1".toList [], Event.getStats "name: 1".toList]) ∧
      remoteCalls
        (callStatsService demoExtern brokenConn "GetStats".toList "name: 1".toList).2 = 1) :=
  ⟨(handlers_remote_error demoExtern brokenConn "RestartLogger".toList [] []
      (GoError.foreign 7)).1 (by decide) rfl rfl,
   (handlers_remote_error demoExtern brokenConn "GetStats".toList "name: 1".toList
      "name: 1".toList (GoError.foreign 7)).2 (by decide) rfl rfl⟩

/-- C7: for each of the two handlers called with a spelling of its supported
method: if decoding the request text into the request message of that method
fails with the error `d`, the handler returns the empty response together with
`d`, and its trace holds the decode alone: the number of remote calls is 0. -/
theorem handlers_decode_error {M E : Type} (x : Extern M E) (conn : ClientConn M E)
    (method request : GoString) (d : GoError E) :
    (strings.ToLower x.lowerRune method = "restartlogger".toList →
      x.unmarshalText request x.restartLoggerRequest = .error d →
      callLogService x conn method request =
        (([], some d), [Event.unmarshalText request x.restartLoggerRequest]) ∧
      remoteCalls (callLogService x conn method request).2 = 0) ∧
    (strings.ToLower x.lowerRune method = "getstats".toList →
      x.unmarshalText request x.getStatsRequest = .error d →
      callStatsService x conn method request =
        (([], some d), [Event.unmarshalText request x.getStatsRequest]) ∧
      remoteCalls (callStatsService x conn method request).2 = 0) := by
  constructor
  · intro hm hd
    have h : callLogService x conn method request =
        (([], some d), [Event.unmarshalText request x.restartLoggerRequest]) := by
      simp [callLogService, hm, hd]
    exact ⟨h, by rw [h]; rfl⟩
  · intro hm hd
    have h : callStatsService x conn method request =
        (([], some d), [Event.unmarshalText request x.getStatsRequest]) := by
      simp [callStatsService, hm, hd]
    exact ⟨h, by rw [h]; rfl⟩

/-- Witness: both handlers on the request text `"bogus: ?"`, which the toy codec
rejects with error code `1`. -/
theorem handlers_decode_error_witness :
    (callLogService demoExtern demoConn "RestartLogger".toList "bogus: ?".toList =
        (([], some (GoError.foreign 1)), [Event.unmarshalText "bogus: ?".toList []]) ∧
      remoteCalls
        (callLogService demoExtern demoConn "RestartLogger".toList "bogus: ?".toList).2 = 0) ∧
    (callStatsService demoExtern demoConn "GetStats".toList "bogus: ?".toList =
        (([], some (GoError.foreign 1)), [Event.unmarshalText "bogus: ?".toList []]) ∧
      remoteCalls
        (callStatsService demoExtern demoConn "GetStats".toList "bogus: ?".toList).2 = 0) :=
  ⟨(handlers_decode_error demoExtern demoConn "RestartLogger".toList "bogus: ?".toList
      (GoError.foreign 1)).1 (by decide) rfl,
   (handlers_decode_error demoExtern demoConn "GetStats".toList "bogus: ?".toList
      (GoError.foreign 1)).2 (by decide) rfl⟩

/-- C8: method names are matched case-insensitively: for each of the two
handlers, every connection, every request text and every method string whose
lower-casing is the supported method, the handler returns the same response and
error and performs the same effects as for the spelling `"RestartLogger"`
resp. `"GetStats"`. -/
theorem handlers_method_case_insensitive {M E : Type} (x : Extern M E)
    (conn : ClientConn M E) (method request : GoString) :
    (strings.ToLower x.lowerRune method = "restartlogger".toList →
      callLogService x conn method request =
        callLogService x conn "RestartLogger".toList request) ∧
    (strings.ToLower x.lowerRune method = "getstats".toList →
      callStatsService x conn method request =
        callStatsService x conn "GetStats".toList request) := by
  constructor
  · intro hm
    simp only [callLogService, hm, toLower_RestartLogger, if_true]
  · intro hm
    simp only [callStatsService, hm, toLower_GetStats, if_true]

/-- Witness: the handlers on the spellings `"RESTARTlogger"` and `"getSTATS"`. -/
theorem handlers_method_case_insensitive_witness :
    callLogService demoExtern demoConn "RESTARTlogger".toList [] =
      callLogService demoExtern demoConn "RestartLogger".toList [] ∧
    callStatsService demoExtern brokenConn "getSTATS".toList [] =
      callStatsService demoExtern brokenConn "GetStats".toList [] :=
  ⟨(handlers_method_case_insensitive demoExtern demoConn "RESTARTlogger".toList []).1
      (by decide),
   (handlers_method_case_insensitive demoExtern brokenConn "getSTATS".toList []).2
      (by decide)⟩

/-- C9: for each of the two handlers called with a spelling of its supported
method: if the request text decodes to `r` and the remote call on `r` returns
the response `resp` without error, the handler returns the text encoding of
`resp` with a nil error, and its trace is one decode, one remote call on `r`
and one encode of `resp`, in this order. -/
theorem handlers_success {M E : Type} (x : Extern M E) (conn : ClientConn M E)
    (method request : GoString) (r resp : M) :
    (strings.ToLower x.lowerRune method = "restartlogger".toList →
      x.unmarshalText request x.restartLoggerRequest = .ok r →
      conn.restartLogger r = .ok resp →
      callLogService x conn method request =
        ((x.marshalTextString resp, none),
          [Event.unmarshalText request x.restartLoggerRequest, Event.restartLogger r,
           Event.marshalTextString resp]) ∧
      decodes (callLogService x conn method request).2 = 1 ∧
      remoteCalls (callLogService x conn method request).2 = 1 ∧
      encodes (callLogService x conn method request).2 = 1) ∧
    (strings.ToLower x.lowerRune method = "getstats".toList →
      x.unmarshalText request x.getStatsRequest = .ok r →
      conn.getStats r = .ok resp →
      callStatsService x conn method request =
        ((x.marshalTextString resp, none),
          [Event.unmarshalText request x.getStatsRequest, Event.getStats r,
           Event.marshalTextString resp]) ∧
      decodes (callStatsService x conn method request).2 = 1 ∧
      remoteCalls (callStatsService x conn method request).2 = 1 ∧
      encodes (callStatsService x conn method request).2 = 1) := by
  constructor
  · intro hm hd hr
    have h : callLogService x conn method request =
        ((x.marshalTextString resp, none),
          [Event.unmarshalText request x.restartLoggerRequest, Event.restartLogger r,
           Event.marshalTextString resp]) := by
      simp [callLogService, hm, hd, hr]
    refine ⟨h, ?_, ?_, ?_⟩ <;> rw [h] <;> rfl
  · intro hm hd hr
    have h : callStatsService x conn method request =
        ((x.marshalTextString resp, none),
          [Event.unmarshalText request x.getStatsRequest, Event.getStats r,
           Event.marshalTextString resp]) := by
      simp [callStatsService, hm, hd, hr]
    refine ⟨h, ?_, ?_, ?_⟩ <;> rw [h] <;> rfl

/-- Witness: both handlers on a connection whose remote procedures answer
`"ok"`. -/
theorem handlers_success_witness :
    callLogService demoExtern demoConn "RestartLogger".toList [] =
      (("ok".toList, none),
        [Event.unmarshalText [] [], Event.restartLogger [],
         Event.marshalTextString "ok".toList]) ∧
    callStatsService demoExtern demoConn "GetStats".toList "name: 1".toList =
      (("ok".toList, none),
        [Event.unmarshalText "name: 1".toList [], Event.getStats "name: 1".toList,
         Event.marshalTextString "ok".toList]) :=
  ⟨((handlers_success demoExtern demoConn "RestartLogger".toList [] [] "ok".toList).1
      (by decide) rfl rfl).1,
   ((handlers_success demoExtern demoConn "GetStats".toList "name: 1".toList
      "name: 1".toList "ok".toList).2 (by decide) rfl rfl).1⟩

end Control
